import Mathlib

/-
Shallow embedding of SERVIDOR_LASTVALUE/server.py (a FastAPI read-only
dashboard over a SQLite `last_value` table), together with proofs about
its row-assembly and rendering logic.

Modelling conventions:
- Python dicts that are only iterated/looked up (SCHULERS, DPELEMENT_BY_EL)
  become insertion-ordered association lists; dict.get(k, d) becomes dictGet.
- A SQLite connection is the table contents (`Store`); get_conn's check
  `DB_PATH.exists()` becomes a `Option Store` argument (none = file absent).
- `raise HTTPException(status, detail)` becomes `Except.error (status, detail)`.
- The rows returned by SQL_LAST carry the already-CAST text value and the
  already-formatted localtime string; the spec's storable kinds (integer,
  float, text, boolean-as-integer) all coerce to non-null text, so both
  fields are plain `String`s here.  `ORDER BY system_time DESC LIMIT 1`
  selects a record maximal in SQLite's byte-wise BINARY text ordering,
  embedded as lexicographic comparison on code points (`strLt`).
-/

/-- One row of the `last_value` table as projected by SQL_LAST:
`dp_id`, `el_id`, `CAST(value AS TEXT)` and the strftime-formatted
`system_time`. -/
structure StoreRec where
  dp_id : Int
  el_id : Int
  value : String
  system_time : String
deriving DecidableEq

/-- The contents of the `last_value` table reachable through one
read-only connection. -/
abbrev Store := List StoreRec

/-- The SCHULERS dict: machine name → dp_id, in declaration order. -/
def SCHULERS : List (String × Int) :=
  [("Schuler1", 982), ("Schuler2", 1028), ("Schuler3", 1029),
   ("Schuler4", 810), ("Schuler5", 1030)]

/-- EL_IDS: display order of element ids (top to bottom). -/
def EL_IDS : List Int :=
  [69, 48, 116, 154, 152, 153, 52, 54, 160, 137, 50]

/-- DPELEMENT_BY_EL: element id → first-column label. -/
def DPELEMENT_BY_EL : List (Int × String) :=
  [(69, "Barras.VelocidadAcunado.Valor"),
   (48, "DatosGen.ModoTrabajo.Led"),
   (116, "DatosGen.ModoTrabajo.Modo"),
   (154, "DatosGen.Denominacion"),
   (152, "DatosGen.OT"),
   (153, "DatosGen.Operador"),
   (52, "Tendencia.Avance"),
   (54, "OEE.Rendimiento"),
   (160, "Tendencia.MetaActual"),
   (137, "TiempoMuerto"),
   (50, "Tendencia.Programado")]

/-- Python `d.get(k, default)` on an association list. -/
def dictGet (m : List (Int × String)) (k : Int) (d : String) : String :=
  match m.lookup k with
  | some v => v
  | none => d

/-- Lexicographic order on code-point sequences: the order SQLite's
BINARY collation gives the formatted `system_time` strings. -/
def charListLt : List Char → List Char → Bool
  | _, [] => false
  | [], _ :: _ => true
  | a :: as, b :: bs =>
    if a.toNat < b.toNat then true
    else if b.toNat < a.toNat then false
    else charListLt as bs

/-- Text comparison used by `ORDER BY system_time`. -/
def strLt (a b : String) : Bool :=
  charListLt a.data b.data

/-- One step of scanning for the record with the greatest `system_time`
(the record `ORDER BY system_time DESC LIMIT 1` keeps). -/
def betterRec (acc : Option StoreRec) (r : StoreRec) : Option StoreRec :=
  match acc with
  | none => some r
  | some m => if strLt m.system_time r.system_time then some r else some m

/-- fetch_last: run SQL_LAST — keep the rows matching both keys, order by
`system_time` descending, return the first (or none). -/
def fetch_last (con : Store) (dp_id el_id : Int) : Option StoreRec :=
  (con.filter fun r => r.dp_id == dp_id && r.el_id == el_id).foldl betterRec none

/-- One Excel-style row of build_rows:
Schuler | DP | DPELEMENT | EL_ID | Valor | FechaHora. -/
structure Row where
  Schuler : String
  DP : Int
  DPELEMENT : String
  EL_ID : Int
  Valor : Option String
  FechaHora : Option String
deriving DecidableEq

/-- The dict appended for one (machine, element) pair in build_rows' inner
loop; the Python binds `r = fetch_last(con, dp, el)` once and reads both
fields from it. -/
def mkRow (con : Store) (labels : List (Int × String)) (s : String × Int)
    (el : Int) : Row :=
  { Schuler := s.1
    DP := s.2
    DPELEMENT := dictGet labels el ("el_" ++ toString el)
    EL_ID := el
    Valor := (fetch_last con s.2 el).map (·.value)
    FechaHora := (fetch_last con s.2 el).map (·.system_time) }

/-- The nested loop of build_rows, over explicit configuration: machines
in SCHULERS order, elements in EL_IDS order within each machine. -/
def buildRowsWith (schulers : List (String × Int)) (el_ids : List Int)
    (labels : List (Int × String)) (con : Store) : List Row :=
  schulers.flatMap fun s => el_ids.map (mkRow con labels s)

/-- Detail string of the HTTPException(500) raised by get_conn when the
database file is absent. -/
def dbMissingMsg : String :=
  "No se encontró la BD en: last_value.sqlite"

/-- get_conn: fail with a 500 when `DB_PATH.exists()` is false, otherwise
hand back the (read-only) connection. -/
def get_conn (db : Option Store) : Except (Nat × String) Store :=
  match db with
  | none => Except.error (500, dbMissingMsg)
  | some con => Except.ok con

/-- build_rows: open the connection once, then assemble every
(machine, element) row from the concrete configuration. -/
def build_rows (db : Option Store) : Except (Nat × String) (List Row) := do
  let con ← get_conn db
  Except.ok (buildRowsWith SCHULERS EL_IDS DPELEMENT_BY_EL con)

/-- The grouping loop of api_schuler: for each machine, its dp_id and the
subsequence of rows whose Schuler field matches, in original order
(insertion-ordered dict becomes an association list). -/
def apiGroups (rows : List Row) : List (String × Int × List Row) :=
  SCHULERS.map fun s => (s.1, s.2, rows.filter fun r => r.Schuler == s.1)

/-- GET /api/schuler: build the rows, then group them by machine. -/
def api_schuler (db : Option Store) :
    Except (Nat × String) (List (String × Int × List Row)) := do
  let rows ← build_rows db
  Except.ok (apiGroups rows)

/-- The linear search `next((x for x in rows if x["Schuler"] == sch and
x["EL_ID"] == el), None)` of the HTML renderer. -/
def findRow (rows : List Row) (sch : String) (el : Int) : Option Row :=
  rows.find? fun x => x.Schuler == sch && x.EL_ID == el

/-- `val = "" if not r or r["Valor"] is None else str(r["Valor"])` (the
only falsy non-None `r` would be an empty dict, which build_rows never
produces). -/
def valCell (r : Option Row) : String :=
  match r with
  | none => ""
  | some x =>
    match x.Valor with
    | none => ""
    | some v => v

/-- `ts = "" if not r or r["FechaHora"] is None else r["FechaHora"]`. -/
def tsCell (r : Option Row) : String :=
  match r with
  | none => ""
  | some x =>
    match x.FechaHora with
    | none => ""
    | some t => t

/-- The f-string of one `<tr>` in the dashboard: label looked up again
from configuration, value and timestamp cells from the searched row. -/
def trFor (labels : List (Int × String)) (rows : List Row) (sch : String)
    (el : Int) : String :=
  "<tr>" ++
  "<td>" ++ dictGet labels el ("el_" ++ toString el) ++ "</td>" ++
  "<td>" ++ valCell (findRow rows sch el) ++ "</td>" ++
  "<td>" ++ tsCell (findRow rows sch el) ++ "</td>" ++
  "</tr>"

/-- The `<h2>` heading of one machine section. -/
def sectionHeader (sch : String) (dp : Int) : String :=
  "<h2>" ++ sch ++ " <small style='color:#666'>(dp_id " ++ toString dp ++
  ")</small></h2>"

/-- The fixed table head of every machine section. -/
def tableHead : String :=
  "<table><thead><tr>" ++
  "<th style='width:45%'>DPELEMENT</th>" ++
  "<th style='width:25%'>Valor</th>" ++
  "<th>FechaHora</th>" ++
  "</tr></thead><tbody>"

/-- One machine section: heading, table head, one `<tr>` per element id
in EL_IDS order, closing tags; joined with newlines as `"\n".join(sec)`. -/
def sectionFor (labels : List (Int × String)) (el_ids : List Int)
    (rows : List Row) (sch : String) (dp : Int) : String :=
  String.intercalate "\n"
    ([sectionHeader sch dp, tableHead] ++ el_ids.map (trFor labels rows sch) ++
     ["</tbody></table>"])

/-- The inline style block of the dashboard page. -/
def styleBlock : String :=
  "\n    <style>\n      body\x7bfont-family:Segoe UI,Arial,sans-serif;margin:16px\x7d\n      table\x7bborder-collapse:collapse;width:100%;margin:12px 0\x7d\n      th,td\x7bborder:1px solid #e6e6e6;padding:8px\x7d\n      th\x7bbackground:#f5f6f8;text-align:left\x7d\n      tr:nth-child(even)\x7bbackground:#fafafa\x7d\n      h2\x7bmargin:20px 0 6px\x7d\n    </style>\n    "

/-- GET /dashboard/schuler: build the rows, then emit one section per
machine in SCHULERS order, concatenated into the page. -/
def dashboard_schuler (db : Option Store) : Except (Nat × String) String := do
  let rows ← build_rows db
  Except.ok
    ("<!doctype html><html><head><meta charset='utf-8'>" ++
     "<title>Dashboard Schuler</title>" ++ styleBlock ++ "</head><body>" ++
     "<h1>Dashboard Schuler</h1>" ++
     String.join (SCHULERS.map fun s => sectionFor DPELEMENT_BY_EL EL_IDS rows s.1 s.2) ++
     "</body></html>")

/-- GET /value/{dp_id}/{el_id}: open a connection, fetch the pair's last
record; 404 with an explicit detail when there is none. -/
def get_value_by_path (db : Option Store) (dp_id el_id : Int) :
    Except (Nat × String) StoreRec := do
  let con ← get_conn db
  match fetch_last con dp_id el_id with
  | none =>
    Except.error (404, "No hay valor para dp_id=" ++ toString dp_id ++
      " y el_id=" ++ toString el_id)
  | some r => Except.ok r

/-! ### Order facts about the embedded BINARY text comparison -/

theorem charListLt_trans :
    ∀ a b c : List Char, charListLt a b = true → charListLt b c = true →
      charListLt a c = true := by
  intro a
  induction a with
  | nil =>
    intro b c h1 h2
    cases c with
    | nil =>
      cases b with
      | nil => simp [charListLt] at h1
      | cons y ys => simp [charListLt] at h2
    | cons z zs => simp [charListLt]
  | cons x xs ih =>
    intro b c h1 h2
    cases b with
    | nil => simp [charListLt] at h1
    | cons y ys =>
      cases c with
      | nil => simp [charListLt] at h2
      | cons z zs =>
        simp only [charListLt] at h1 h2 ⊢
        split_ifs at h1 h2 ⊢ <;>
          first
          | rfl
          | omega
          | (exact ih ys zs h1 h2)

theorem charListLt_lt_of_lt_of_nlt :
    ∀ a b c : List Char, charListLt a b = true → charListLt c b = false →
      charListLt a c = true := by
  intro a
  induction a with
  | nil =>
    intro b c h1 h2
    cases c with
    | nil =>
      cases b with
      | nil => simp [charListLt] at h1
      | cons y ys => simp [charListLt] at h2
    | cons z zs => simp [charListLt]
  | cons x xs ih =>
    intro b c h1 h2
    cases b with
    | nil => simp [charListLt] at h1
    | cons y ys =>
      cases c with
      | nil => simp [charListLt] at h2
      | cons z zs =>
        simp only [charListLt] at h1 h2 ⊢
        split_ifs at h1 h2 ⊢ <;>
          first
          | rfl
          | omega
          | (exact ih ys zs h1 h2)

theorem strLt_trans {a b c : String} (h1 : strLt a b = true)
    (h2 : strLt b c = true) : strLt a c = true :=
  charListLt_trans a.data b.data c.data h1 h2

theorem strLt_lt_of_lt_of_nlt {a b c : String} (h1 : strLt a b = true)
    (h2 : strLt c b = false) : strLt a c = true :=
  charListLt_lt_of_lt_of_nlt a.data b.data c.data h1 h2

/-! ### The max-scan of fetch_last -/

theorem charListLt_irrefl : ∀ a : List Char, charListLt a a = false := by
  intro a
  induction a with
  | nil => rfl
  | cons x xs ih => simp [charListLt, ih]

theorem strLt_irrefl (a : String) : strLt a a = false :=
  charListLt_irrefl a.data

theorem foldl_betterRec_some :
    ∀ (l : List StoreRec) (m : StoreRec), ∃ r, l.foldl betterRec (some m) = some r := by
  intro l
  induction l with
  | nil => intro m; exact ⟨m, rfl⟩
  | cons x xs ih =>
    intro m
    show ∃ r, xs.foldl betterRec (betterRec (some m) x) = some r
    cases hb : strLt m.system_time x.system_time with
    | true =>
      rw [show betterRec (some m) x = some x from by simp [betterRec, hb]]
      exact ih x
    | false =>
      rw [show betterRec (some m) x = some m from by simp [betterRec, hb]]
      exact ih m

theorem foldl_betterRec_mem :
    ∀ (l : List StoreRec) (acc : Option StoreRec) (r : StoreRec),
      l.foldl betterRec acc = some r → acc = some r ∨ r ∈ l := by
  intro l
  induction l with
  | nil => intro acc r h; exact Or.inl h
  | cons x xs ih =>
    intro acc r h
    rcases ih (betterRec acc x) r h with h' | h'
    · cases acc with
      | none =>
        simp only [betterRec] at h'
        cases Option.some.inj h'
        exact Or.inr (List.mem_cons_self x xs)
      | some m =>
        simp only [betterRec] at h'
        split at h'
        · cases Option.some.inj h'
          exact Or.inr (List.mem_cons_self x xs)
        · exact Or.inl h'
    · exact Or.inr (List.mem_cons_of_mem x h')

theorem foldl_betterRec_max :
    ∀ (l : List StoreRec) (acc : Option StoreRec) (r : StoreRec),
      l.foldl betterRec acc = some r →
      (∀ m, acc = some m → strLt r.system_time m.system_time = false) ∧
      (∀ x ∈ l, strLt r.system_time x.system_time = false) := by
  intro l
  induction l with
  | nil =>
    intro acc r h
    simp only [List.foldl_nil] at h
    subst h
    refine ⟨fun m hm => ?_, fun x hx => absurd hx (List.not_mem_nil x)⟩
    cases hm
    exact strLt_irrefl r.system_time
  | cons x xs ih =>
    intro acc r h
    simp only [List.foldl_cons] at h
    obtain ⟨hacc', hxs⟩ := ih (betterRec acc x) r h
    constructor
    · intro m hm
      subst hm
      cases hb : strLt m.system_time x.system_time with
      | true =>
        have hrx : strLt r.system_time x.system_time = false :=
          hacc' x (by simp [betterRec, hb])
        by_contra hc
        simp only [Bool.not_eq_false] at hc
        have hcontra := strLt_trans hc hb
        rw [hrx] at hcontra
        cases hcontra
      | false =>
        exact hacc' m (by simp [betterRec, hb])
    · intro y hy
      rcases List.mem_cons.mp hy with rfl | hy'
      · cases acc with
        | none => exact hacc' y rfl
        | some m =>
          cases hb : strLt m.system_time y.system_time with
          | true => exact hacc' y (by simp [betterRec, hb])
          | false =>
            have hrm : strLt r.system_time m.system_time = false :=
              hacc' m (by simp [betterRec, hb])
            by_contra hc
            simp only [Bool.not_eq_false] at hc
            have hcontra := strLt_lt_of_lt_of_nlt hc hb
            rw [hrm] at hcontra
            cases hcontra
      · exact hxs y hy'

theorem fetch_last_eq_none_iff (con : Store) (dp_id el_id : Int) :
    fetch_last con dp_id el_id = none ↔
      ∀ r ∈ con, ¬(r.dp_id = dp_id ∧ r.el_id = el_id) := by
  unfold fetch_last
  cases hf : con.filter fun r => r.dp_id == dp_id && r.el_id == el_id with
  | nil =>
    simp only [List.foldl_nil, true_iff]
    intro r hr hkeys
    have : r ∈ (List.nil : List StoreRec) := by
      rw [← hf]
      exact List.mem_filter.mpr ⟨hr, by simp [hkeys.1, hkeys.2]⟩
    exact absurd this (List.not_mem_nil r)
  | cons x rest =>
    simp only [List.foldl_cons]
    have hx : x ∈ con ∧ (x.dp_id == dp_id && x.el_id == el_id) = true :=
      List.mem_filter.mp (hf ▸ List.mem_cons_self x rest)
    obtain ⟨r, hr⟩ := foldl_betterRec_some rest x
    rw [show betterRec none x = some x from rfl, hr]
    constructor
    · intro hcontra; cases hcontra
    · intro hall
      exfalso
      have hk : x.dp_id = dp_id ∧ x.el_id = el_id := by simpa using hx.2
      exact hall x hx.1 hk

/-! ### Structure of the assembled row list -/

theorem buildRowsWith_cons (s : String × Int) (ss : List (String × Int))
    (el_ids : List Int) (labels : List (Int × String)) (con : Store) :
    buildRowsWith (s :: ss) el_ids labels con =
      el_ids.map (mkRow con labels s) ++ buildRowsWith ss el_ids labels con := by
  simp [buildRowsWith]

theorem buildRowsWith_proj (schulers : List (String × Int)) (el_ids : List Int)
    (labels : List (Int × String)) (con : Store) :
    (buildRowsWith schulers el_ids labels con).map (fun r => (r.Schuler, r.EL_ID)) =
      schulers.flatMap fun s => el_ids.map fun e => (s.1, e) := by
  simp [buildRowsWith, List.map_flatMap, List.map_map, Function.comp_def, mkRow]

theorem buildRowsWith_length (schulers : List (String × Int)) (el_ids : List Int)
    (labels : List (Int × String)) (con : Store) :
    (buildRowsWith schulers el_ids labels con).length =
      schulers.length * el_ids.length := by
  induction schulers with
  | nil => simp [buildRowsWith]
  | cons s ss ih =>
    rw [buildRowsWith_cons, List.length_append, List.length_map, ih]
    simp [List.length_cons, Nat.succ_mul, Nat.add_comm]

theorem mem_buildRowsWith (schulers : List (String × Int)) (el_ids : List Int)
    (labels : List (Int × String)) (con : Store) (s : String × Int) (el : Int)
    (hs : s ∈ schulers) (he : el ∈ el_ids) :
    mkRow con labels s el ∈ buildRowsWith schulers el_ids labels con :=
  List.mem_flatMap.mpr ⟨s, hs, List.mem_map_of_mem (mkRow con labels s) he⟩

theorem eq_mkRow_of_mem_buildRowsWith (schulers : List (String × Int))
    (el_ids : List Int) (labels : List (Int × String)) (con : Store) (r : Row)
    (hr : r ∈ buildRowsWith schulers el_ids labels con) :
    ∃ s ∈ schulers, ∃ el ∈ el_ids, r = mkRow con labels s el := by
  obtain ⟨s, hs, hmem⟩ := List.mem_flatMap.mp hr
  obtain ⟨el, he, heq⟩ := List.mem_map.mp hmem
  exact ⟨s, hs, el, he, heq.symm⟩

theorem countP_pair_grid (schulers : List (String × Int)) (el_ids : List Int)
    (m : String) (e : Int) :
    ((schulers.flatMap fun s => el_ids.map fun x => (s.1, x)).countP
        fun p => p.1 == m && p.2 == e) =
      (schulers.countP fun s => s.1 == m) * (el_ids.countP fun x => x == e) := by
  induction schulers with
  | nil => simp
  | cons s ss ih =>
    simp only [List.flatMap_cons, List.countP_append, ih, List.countP_cons,
      List.countP_map, Function.comp_def]
    by_cases hs : s.1 == m
    · simp only [hs, Bool.true_and, if_pos]
      ring
    · simp only [Bool.not_eq_true] at hs
      simp [hs, List.countP_false]

theorem filter_map_buildRows_block (el_ids : List Int)
    (labels : List (Int × String)) (con : Store) (s : String × Int)
    (sch : String) (hs : s.1 = sch) :
    (el_ids.map (mkRow con labels s)).filter (fun r => r.Schuler == sch) =
      el_ids.map (mkRow con labels s) := by
  apply List.filter_eq_self.mpr
  intro r hr
  obtain ⟨e, _, rfl⟩ := List.mem_map.mp hr
  simp [mkRow, hs]

theorem filter_buildRows_none (schulers : List (String × Int))
    (el_ids : List Int) (labels : List (Int × String)) (con : Store)
    (sch : String) (hout : sch ∉ schulers.map Prod.fst) :
    (buildRowsWith schulers el_ids labels con).filter
        (fun r => r.Schuler == sch) = [] := by
  apply List.filter_eq_nil_iff.mpr
  intro r hr
  obtain ⟨s, hs, e, _, rfl⟩ := eq_mkRow_of_mem_buildRowsWith _ _ _ _ r hr
  have : s.1 ≠ sch := fun h => hout (h ▸ List.mem_map_of_mem Prod.fst hs)
  simp [mkRow, this]

theorem filter_buildRowsWith (schulers : List (String × Int))
    (el_ids : List Int) (labels : List (Int × String)) (con : Store)
    (sch : String) (dp : Int) (nd : (schulers.map Prod.fst).Nodup)
    (hmem : (sch, dp) ∈ schulers) :
    (buildRowsWith schulers el_ids labels con).filter
        (fun r => r.Schuler == sch) =
      el_ids.map (mkRow con labels (sch, dp)) := by
  induction schulers with
  | nil => exact absurd hmem (List.not_mem_nil _)
  | cons s ss ih =>
    rw [buildRowsWith_cons, List.filter_append]
    rw [List.map_cons, List.nodup_cons] at nd
    by_cases hsch : s.1 = sch
    · have hs_eq : s = (sch, dp) := by
        rcases List.mem_cons.mp hmem with h | h
        · exact h.symm
        · exact absurd (hsch ▸ List.mem_map_of_mem Prod.fst h) nd.1
      rw [filter_map_buildRows_block el_ids labels con s sch hsch,
        filter_buildRows_none ss el_ids labels con sch (hsch ▸ nd.1), hs_eq,
        List.append_nil]
    · have hmem' : (sch, dp) ∈ ss := by
        rcases List.mem_cons.mp hmem with h | h
        · exact absurd (congrArg Prod.fst h.symm) hsch
        · exact h
      have hnone : (el_ids.map (mkRow con labels s)).filter
          (fun r => r.Schuler == sch) = [] := by
        apply List.filter_eq_nil_iff.mpr
        intro r hr
        obtain ⟨e, _, rfl⟩ := List.mem_map.mp hr
        simp [mkRow, hsch]
      rw [hnone, List.nil_append]
      exact ih nd.2 hmem'

theorem find?_eq_head?_filter {α : Type} (p : α → Bool) (l : List α) :
    l.find? p = (l.filter p).head? := by
  induction l with
  | nil => rfl
  | cons x xs ih =>
    cases h : p x with
    | true =>
      rw [List.find?_cons_of_pos _ h, List.filter_cons_of_pos h, List.head?_cons]
    | false =>
      rw [List.find?_cons_of_neg _ (by simp [h]), List.filter_cons_of_neg (by simp [h])]
      exact ih

theorem findRow_buildRowsWith (schulers : List (String × Int))
    (el_ids : List Int) (labels : List (Int × String)) (con : Store)
    (sch : String) (dp : Int) (el : Int)
    (nd : (schulers.map Prod.fst).Nodup) (nde : el_ids.Nodup)
    (hmem : (sch, dp) ∈ schulers) (he : el ∈ el_ids) :
    findRow (buildRowsWith schulers el_ids labels con) sch el =
      some (mkRow con labels (sch, dp) el) := by
  unfold findRow
  rw [find?_eq_head?_filter]
  have hsplit : (buildRowsWith schulers el_ids labels con).filter
      (fun x => x.Schuler == sch && x.EL_ID == el) =
      ((buildRowsWith schulers el_ids labels con).filter
        (fun x => x.Schuler == sch)).filter (fun x => x.EL_ID == el) := by
    rw [List.filter_filter]
    apply List.filter_congr
    intro x _
    exact Bool.and_comm _ _
  rw [hsplit, filter_buildRowsWith schulers el_ids labels con sch dp nd hmem]
  have hinner : (el_ids.map (mkRow con labels (sch, dp))).filter
      (fun x => x.EL_ID == el) =
      (el_ids.filter (fun e => e == el)).map (mkRow con labels (sch, dp)) := by
    rw [List.filter_map]
    rfl
  rw [hinner]
  have hfe : el_ids.filter (fun e => e == el) = [el] := by
    rw [List.filter_beq el_ids el, List.count_eq_one_of_mem nde he,
      List.replicate_one]
  rw [hfe]
  rfl

/-! ### Claim theorems -/

/-- C1: for every store content and (dp_id, el_id) pair, fetch_last returns
`none` — not an error — exactly when no record matches both keys, and any
record it returns matches both keys, comes from the store, and is maximal
in the `system_time` ordering used by `ORDER BY system_time DESC LIMIT 1`
(so of two records with different timestamps it is the later one). -/
theorem fetch_last_returns_latest (con : Store) (dp_id el_id : Int) :
    (fetch_last con dp_id el_id = none ↔
      ∀ r ∈ con, ¬(r.dp_id = dp_id ∧ r.el_id = el_id)) ∧
    ∀ r, fetch_last con dp_id el_id = some r →
      r ∈ con ∧ r.dp_id = dp_id ∧ r.el_id = el_id ∧
      ∀ s ∈ con, s.dp_id = dp_id → s.el_id = el_id →
        strLt r.system_time s.system_time = false := by
  refine ⟨fetch_last_eq_none_iff con dp_id el_id, ?_⟩
  intro r hr
  have hmem := foldl_betterRec_mem _ none r hr
  rcases hmem with h | h
  · exact Option.noConfusion h
  · have hf := List.mem_filter.mp h
    have hkeys : r.dp_id = dp_id ∧ r.el_id = el_id := by simpa using hf.2
    refine ⟨hf.1, hkeys.1, hkeys.2, ?_⟩
    intro s hs hd he
    have hsf : s ∈ con.filter fun t => t.dp_id == dp_id && t.el_id == el_id :=
      List.mem_filter.mpr ⟨hs, by simp [hd, he]⟩
    exact (foldl_betterRec_max _ none r hr).2 s hsf

/-- Witness for C1 at a two-record store for (982, 69) with different
timestamps: the returned record is the later one. -/
theorem fetch_last_returns_latest_witness :
    (⟨982, 69, "99", "2024-01-02 10:00:00"⟩ : StoreRec) ∈
      ([⟨982, 69, "12.5", "2024-01-01 10:00:00"⟩,
        ⟨982, 69, "99", "2024-01-02 10:00:00"⟩] : Store) ∧
    (⟨982, 69, "99", "2024-01-02 10:00:00"⟩ : StoreRec).dp_id = 982 ∧
    (⟨982, 69, "99", "2024-01-02 10:00:00"⟩ : StoreRec).el_id = 69 ∧
    ∀ s ∈ ([⟨982, 69, "12.5", "2024-01-01 10:00:00"⟩,
        ⟨982, 69, "99", "2024-01-02 10:00:00"⟩] : Store),
      s.dp_id = 982 → s.el_id = 69 →
        strLt (⟨982, 69, "99", "2024-01-02 10:00:00"⟩ : StoreRec).system_time
          s.system_time = false :=
  (fetch_last_returns_latest
    [⟨982, 69, "12.5", "2024-01-01 10:00:00"⟩,
     ⟨982, 69, "99", "2024-01-02 10:00:00"⟩] 982 69).2
    ⟨982, 69, "99", "2024-01-02 10:00:00"⟩ (by decide)

/-- C4: in every Row assembled by build_rows, value and timestamp are null
together or non-null together, for every store content. -/
theorem row_null_pairing (con : Store) :
    ∀ r ∈ buildRowsWith SCHULERS EL_IDS DPELEMENT_BY_EL con,
      (r.Valor = none ↔ r.FechaHora = none) := by
  intro r hr
  obtain ⟨s, _, el, _, rfl⟩ := eq_mkRow_of_mem_buildRowsWith _ _ _ _ r hr
  cases hf : fetch_last con s.2 el <;> simp [mkRow, hf]

/-- Witness for C4 on the empty store at the first configured pair. -/
theorem row_null_pairing_witness :
    ((mkRow [] DPELEMENT_BY_EL ("Schuler1", 982) 69).Valor = none ↔
      (mkRow [] DPELEMENT_BY_EL ("Schuler1", 982) 69).FechaHora = none) :=
  row_null_pairing [] (mkRow [] DPELEMENT_BY_EL ("Schuler1", 982) 69)
    (by decide)

/-- C5: with the store file absent, build_rows fails with the explicit 500
server error, GET /api/schuler propagates the same error instead of an
empty JSON body, and this error is distinguishable from the 404 that GET
/value answers when a record is merely missing. -/
theorem store_unavailable_surfaces_error :
    build_rows none = Except.error (500, dbMissingMsg) ∧
    api_schuler none = Except.error (500, dbMissingMsg) ∧
    get_value_by_path (some []) 1028 48 =
      Except.error (404, "No hay valor para dp_id=" ++ toString (1028 : Int) ++
        " y el_id=" ++ toString (48 : Int)) :=
  ⟨rfl, rfl, rfl⟩

/-- C9: GET /value/{dp_id}/{el_id} answers an explicit 404 — not an empty
success — exactly when no record matches, and returns the fetched record
when one exists. -/
theorem value_endpoint_not_found (con : Store) (dp_id el_id : Int) :
    (fetch_last con dp_id el_id = none →
      get_value_by_path (some con) dp_id el_id =
        Except.error (404, "No hay valor para dp_id=" ++ toString dp_id ++
          " y el_id=" ++ toString el_id)) ∧
    ∀ r, fetch_last con dp_id el_id = some r →
      get_value_by_path (some con) dp_id el_id = Except.ok r := by
  constructor
  · intro h
    simp [get_value_by_path, get_conn, bind, Except.bind, h]
  · intro r h
    simp [get_value_by_path, get_conn, bind, Except.bind, h]

/-- Witness for C9 at (1028, 48) on the empty store: explicit 404. -/
theorem value_endpoint_not_found_witness :
    get_value_by_path (some []) 1028 48 =
      Except.error (404, "No hay valor para dp_id=" ++ toString (1028 : Int) ++
        " y el_id=" ++ toString (48 : Int)) :=
  (value_endpoint_not_found [] 1028 48).1 rfl

theorem countP_fst_eq_one_of_nodup {l : List (String × Int)} {m : String}
    {dp : Int} (nd : (l.map Prod.fst).Nodup) (h : (m, dp) ∈ l) :
    (l.countP fun s => s.1 == m) = 1 := by
  induction l with
  | nil => cases h
  | cons s ss ih =>
    rw [List.map_cons, List.nodup_cons] at nd
    rw [List.countP_cons]
    rcases List.mem_cons.mp h with heq | h'
    · have htail : (ss.countP fun t => t.1 == m) = 0 := by
        apply List.countP_eq_zero.mpr
        intro t ht hc
        have : t.1 = m := by simpa using hc
        have hmem : s.1 ∈ ss.map Prod.fst := by
          rw [← heq]
          simpa [this] using List.mem_map_of_mem Prod.fst ht
        exact nd.1 hmem
      have hhead : s.1 = m := by rw [← heq]
      simp [htail, hhead]
    · have hne : s.1 ≠ m :=
        fun hh => nd.1 (hh ▸ List.mem_map_of_mem Prod.fst h')
      rw [ih nd.2 h']
      simp [hne]

theorem countP_el_eq_one_of_nodup {l : List Int} {e : Int} (nd : l.Nodup)
    (h : e ∈ l) : (l.countP fun x => x == e) = 1 := by
  induction l with
  | nil => cases h
  | cons x xs ih =>
    rw [List.nodup_cons] at nd
    rw [List.countP_cons]
    rcases List.mem_cons.mp h with rfl | h'
    · have htail : (xs.countP fun y => y == e) = 0 := by
        apply List.countP_eq_zero.mpr
        intro t ht hc
        have : t = e := by simpa using hc
        exact nd.1 (this ▸ ht)
      simp [htail]
    · have hne : x ≠ e := fun hh => nd.1 (hh ▸ h')
      rw [ih nd.2 h']
      simp [hne]

/-- C2: for every store content the assembled sequence has length exactly
|machines| × |elements|, contains exactly one Row per configured
(machine, element) pair, and a pair whose lookup returns nothing still
gets its Row, with null value and null timestamp. -/
theorem build_rows_complete_grid (con : Store) :
    (buildRowsWith SCHULERS EL_IDS DPELEMENT_BY_EL con).length =
      SCHULERS.length * EL_IDS.length ∧
    (∀ m dp, (m, dp) ∈ SCHULERS → ∀ e ∈ EL_IDS,
      ((buildRowsWith SCHULERS EL_IDS DPELEMENT_BY_EL con).countP
        fun r => r.Schuler == m && r.EL_ID == e) = 1) ∧
    ∀ m dp, (m, dp) ∈ SCHULERS → ∀ e ∈ EL_IDS,
      fetch_last con dp e = none →
      ∃ r ∈ buildRowsWith SCHULERS EL_IDS DPELEMENT_BY_EL con,
        r.Schuler = m ∧ r.EL_ID = e ∧ r.Valor = none ∧ r.FechaHora = none := by
  refine ⟨buildRowsWith_length SCHULERS EL_IDS DPELEMENT_BY_EL con, ?_, ?_⟩
  · intro m dp hm e he
    have h1 : ((buildRowsWith SCHULERS EL_IDS DPELEMENT_BY_EL con).countP
        fun r => r.Schuler == m && r.EL_ID == e) =
        (((buildRowsWith SCHULERS EL_IDS DPELEMENT_BY_EL con).map
          fun r => (r.Schuler, r.EL_ID)).countP
            fun pr => pr.1 == m && pr.2 == e) := by
      rw [List.countP_map]
      apply List.countP_congr
      intro r _
      simp [Function.comp]
    rw [h1, buildRowsWith_proj, countP_pair_grid,
      countP_fst_eq_one_of_nodup (by decide) hm,
      countP_el_eq_one_of_nodup (by decide) he]
  · intro m dp hm e he hf
    refine ⟨mkRow con DPELEMENT_BY_EL (m, dp) e,
      mem_buildRowsWith SCHULERS EL_IDS DPELEMENT_BY_EL con (m, dp) e hm he,
      rfl, rfl, ?_, ?_⟩ <;> simp [mkRow, hf]

/-- Witness for C2 on the empty store at (Schuler1, 69). -/
theorem build_rows_complete_grid_witness :
    (buildRowsWith SCHULERS EL_IDS DPELEMENT_BY_EL []).length =
      SCHULERS.length * EL_IDS.length ∧
    ((buildRowsWith SCHULERS EL_IDS DPELEMENT_BY_EL []).countP
      fun r => r.Schuler == "Schuler1" && r.EL_ID == 69) = 1 ∧
    ∃ r ∈ buildRowsWith SCHULERS EL_IDS DPELEMENT_BY_EL [],
      r.Schuler = "Schuler1" ∧ r.EL_ID = 69 ∧ r.Valor = none ∧
        r.FechaHora = none :=
  ⟨(build_rows_complete_grid []).1,
   (build_rows_complete_grid []).2.1 "Schuler1" 982 (by decide) 69 (by decide),
   (build_rows_complete_grid []).2.2 "Schuler1" 982 (by decide) 69 (by decide)
     rfl⟩

/-- C3: for every store content the row sequence is machine-major in
SCHULERS order with EL_IDS order within each machine; the JSON grouping
lists machines in SCHULERS order with each machine's items in EL_IDS
order; and the HTML renderer's per-cell search resolves each configured
(machine, element) — taken in its configured order — to exactly that
pair's assembled row. -/
theorem build_rows_ordering (con : Store) :
    (((buildRowsWith SCHULERS EL_IDS DPELEMENT_BY_EL con).map
        fun r => (r.Schuler, r.EL_ID)) =
      SCHULERS.flatMap fun s => EL_IDS.map fun e => (s.1, e)) ∧
    (((apiGroups (buildRowsWith SCHULERS EL_IDS DPELEMENT_BY_EL con)).map
        fun g => g.1) = SCHULERS.map fun s => s.1) ∧
    (∀ g ∈ apiGroups (buildRowsWith SCHULERS EL_IDS DPELEMENT_BY_EL con),
      g.2.2.map (fun r => r.EL_ID) = EL_IDS) ∧
    ∀ s ∈ SCHULERS, ∀ el ∈ EL_IDS,
      findRow (buildRowsWith SCHULERS EL_IDS DPELEMENT_BY_EL con) s.1 el =
        some (mkRow con DPELEMENT_BY_EL s el) := by
  refine ⟨buildRowsWith_proj SCHULERS EL_IDS DPELEMENT_BY_EL con, ?_, ?_, ?_⟩
  · simp [apiGroups, List.map_map, Function.comp_def]
  · intro g hg
    obtain ⟨s, hs, rfl⟩ := List.mem_map.mp hg
    show ((buildRowsWith SCHULERS EL_IDS DPELEMENT_BY_EL con).filter
      fun r => r.Schuler == s.1).map (fun r => r.EL_ID) = EL_IDS
    rw [filter_buildRowsWith SCHULERS EL_IDS DPELEMENT_BY_EL con s.1 s.2
      (by decide) (by rw [Prod.mk.eta]; exact hs)]
    rw [List.map_map]
    simp [Function.comp_def, mkRow]
  · intro s hs el he
    have hfind := findRow_buildRowsWith SCHULERS EL_IDS DPELEMENT_BY_EL con
      s.1 s.2 el (by decide) (by decide) (by rw [Prod.mk.eta]; exact hs) he
    rwa [Prod.mk.eta] at hfind

/-- Witness for C3 on the empty store: machine-major projection, and the
per-cell search at (Schuler1, 69). -/
theorem build_rows_ordering_witness :
    (((buildRowsWith SCHULERS EL_IDS DPELEMENT_BY_EL []).map
        fun r => (r.Schuler, r.EL_ID)) =
      SCHULERS.flatMap fun s => EL_IDS.map fun e => (s.1, e)) ∧
    findRow (buildRowsWith SCHULERS EL_IDS DPELEMENT_BY_EL []) "Schuler1" 69 =
      some (mkRow [] DPELEMENT_BY_EL ("Schuler1", 982) 69) :=
  ⟨(build_rows_ordering []).1,
   (build_rows_ordering []).2.2.2 ("Schuler1", 982) (by decide) 69 (by decide)⟩

/-- C10: for every store content and every configured (machine, element)
pair, the dashboard's linear search finds a row, so its `r is None`
branch — the one that would render empty cells because no row was
found — is unreachable; the cells render the found row's own fields,
null becoming the empty string. -/
theorem dashboard_search_total (con : Store) :
    ∀ s ∈ SCHULERS, ∀ el ∈ EL_IDS,
      ∃ r, findRow (buildRowsWith SCHULERS EL_IDS DPELEMENT_BY_EL con) s.1 el
          = some r ∧
        valCell (findRow (buildRowsWith SCHULERS EL_IDS DPELEMENT_BY_EL con)
          s.1 el) = r.Valor.getD "" ∧
        tsCell (findRow (buildRowsWith SCHULERS EL_IDS DPELEMENT_BY_EL con)
          s.1 el) = r.FechaHora.getD "" := by
  intro s hs el he
  have hf : findRow (buildRowsWith SCHULERS EL_IDS DPELEMENT_BY_EL con) s.1 el
      = some (mkRow con DPELEMENT_BY_EL s el) := by
    have hfind := findRow_buildRowsWith SCHULERS EL_IDS DPELEMENT_BY_EL con
      s.1 s.2 el (by decide) (by decide) (by rw [Prod.mk.eta]; exact hs) he
    rwa [Prod.mk.eta] at hfind
  refine ⟨mkRow con DPELEMENT_BY_EL s el, hf, ?_, ?_⟩
  · rw [hf]
    cases h : (mkRow con DPELEMENT_BY_EL s el).Valor <;> simp [valCell, h]
  · rw [hf]
    cases h : (mkRow con DPELEMENT_BY_EL s el).FechaHora <;> simp [tsCell, h]

/-- Witness for C10 on the empty store at (Schuler1, 69). -/
theorem dashboard_search_total_witness :
    ∃ r, findRow (buildRowsWith SCHULERS EL_IDS DPELEMENT_BY_EL [])
        "Schuler1" 69 = some r ∧
      valCell (findRow (buildRowsWith SCHULERS EL_IDS DPELEMENT_BY_EL [])
        "Schuler1" 69) = r.Valor.getD "" ∧
      tsCell (findRow (buildRowsWith SCHULERS EL_IDS DPELEMENT_BY_EL [])
        "Schuler1" 69) = r.FechaHora.getD "" :=
  dashboard_search_total [] ("Schuler1", 982) (by decide) 69 (by decide)

/-- C6: the label carried by an assembled Row and the label printed in its
`<tr>` are the configured label when `DPELEMENT_BY_EL` has one for the
element id, and exactly `"el_" ++ id` otherwise. -/
theorem label_fallback_resolution (labels : List (Int × String)) (con : Store)
    (rows : List Row) (s : String × Int) (el : Int) :
    (labels.lookup el = none →
      (mkRow con labels s el).DPELEMENT = "el_" ++ toString el ∧
      trFor labels rows s.1 el =
        "<tr>" ++ "<td>" ++ ("el_" ++ toString el) ++ "</td>" ++
        "<td>" ++ valCell (findRow rows s.1 el) ++ "</td>" ++
        "<td>" ++ tsCell (findRow rows s.1 el) ++ "</td>" ++ "</tr>") ∧
    ∀ lab, labels.lookup el = some lab →
      (mkRow con labels s el).DPELEMENT = lab ∧
      trFor labels rows s.1 el =
        "<tr>" ++ "<td>" ++ lab ++ "</td>" ++
        "<td>" ++ valCell (findRow rows s.1 el) ++ "</td>" ++
        "<td>" ++ tsCell (findRow rows s.1 el) ++ "</td>" ++ "</tr>" := by
  constructor
  · intro h
    exact ⟨by simp [mkRow, dictGet, h], by simp [trFor, dictGet, h]⟩
  · intro lab h
    exact ⟨by simp [mkRow, dictGet, h], by simp [trFor, dictGet, h]⟩

/-- Witness for C6: element 999 has no configured label and renders as
el_999; element 69 renders its configured label. -/
theorem label_fallback_resolution_witness :
    ((mkRow [] DPELEMENT_BY_EL ("Schuler1", 982) 999).DPELEMENT =
      "el_" ++ toString (999 : Int) ∧
     trFor DPELEMENT_BY_EL [] "Schuler1" 999 =
        "<tr>" ++ "<td>" ++ ("el_" ++ toString (999 : Int)) ++ "</td>" ++
        "<td>" ++ valCell (findRow [] "Schuler1" 999) ++ "</td>" ++
        "<td>" ++ tsCell (findRow [] "Schuler1" 999) ++ "</td>" ++ "</tr>") ∧
    ((mkRow [] DPELEMENT_BY_EL ("Schuler1", 982) 69).DPELEMENT =
      "Barras.VelocidadAcunado.Valor" ∧
     trFor DPELEMENT_BY_EL [] "Schuler1" 69 =
        "<tr>" ++ "<td>" ++ "Barras.VelocidadAcunado.Valor" ++ "</td>" ++
        "<td>" ++ valCell (findRow [] "Schuler1" 69) ++ "</td>" ++
        "<td>" ++ tsCell (findRow [] "Schuler1" 69) ++ "</td>" ++ "</tr>") :=
  ⟨(label_fallback_resolution DPELEMENT_BY_EL [] [] ("Schuler1", 982) 999).1
      (by decide),
   (label_fallback_resolution DPELEMENT_BY_EL [] [] ("Schuler1", 982) 69).2
      "Barras.VelocidadAcunado.Valor" (by decide)⟩

/-- C7: whenever the dashboard's search found a row, its `<tr>` renders a
null value as an empty value cell and a null timestamp as an empty
timestamp cell, and non-null fields as their text. -/
theorem html_null_cells (labels : List (Int × String)) (rows : List Row)
    (sch : String) (el : Int) (r : Row)
    (h : findRow rows sch el = some r) :
    trFor labels rows sch el =
      "<tr>" ++ "<td>" ++ dictGet labels el ("el_" ++ toString el) ++ "</td>" ++
      "<td>" ++ r.Valor.getD "" ++ "</td>" ++
      "<td>" ++ r.FechaHora.getD "" ++ "</td>" ++ "</tr>" ∧
    (r.Valor = none → valCell (findRow rows sch el) = "") ∧
    (∀ v, r.Valor = some v → valCell (findRow rows sch el) = v) ∧
    (r.FechaHora = none → tsCell (findRow rows sch el) = "") ∧
    ∀ t, r.FechaHora = some t → tsCell (findRow rows sch el) = t := by
  have hv : valCell (some r) = r.Valor.getD "" := by
    cases hr : r.Valor <;> simp [valCell, hr]
  have ht : tsCell (some r) = r.FechaHora.getD "" := by
    cases hr : r.FechaHora <;> simp [tsCell, hr]
  refine ⟨?_, ?_, ?_, ?_, ?_⟩
  · unfold trFor
    rw [h, hv, ht]
  · intro hr
    rw [h, hv, hr]
    rfl
  · intro v hr
    rw [h, hv, hr]
    rfl
  · intro hr
    rw [h, ht, hr]
    rfl
  · intro t hr
    rw [h, ht, hr]
    rfl

/-- Witness for C7 at a found row whose fields are both null: both cells
are empty strings. -/
theorem html_null_cells_witness :
    trFor DPELEMENT_BY_EL [⟨"Schuler1", 982, "Barras.VelocidadAcunado.Valor",
        69, none, none⟩] "Schuler1" 69 =
      "<tr>" ++ "<td>" ++
        dictGet DPELEMENT_BY_EL 69 ("el_" ++ toString (69 : Int)) ++ "</td>" ++
      "<td>" ++ (Option.getD (α := String) none "") ++ "</td>" ++
      "<td>" ++ (Option.getD (α := String) none "") ++ "</td>" ++ "</tr>" ∧
    ((Option.none : Option String) = none →
      valCell (findRow [⟨"Schuler1", 982, "Barras.VelocidadAcunado.Valor",
        69, none, none⟩] "Schuler1" 69) = "") ∧
    (∀ v, (Option.none : Option String) = some v →
      valCell (findRow [⟨"Schuler1", 982, "Barras.VelocidadAcunado.Valor",
        69, none, none⟩] "Schuler1" 69) = v) ∧
    ((Option.none : Option String) = none →
      tsCell (findRow [⟨"Schuler1", 982, "Barras.VelocidadAcunado.Valor",
        69, none, none⟩] "Schuler1" 69) = "") ∧
    ∀ t, (Option.none : Option String) = some t →
      tsCell (findRow [⟨"Schuler1", 982, "Barras.VelocidadAcunado.Valor",
        69, none, none⟩] "Schuler1" 69) = t :=
  html_null_cells DPELEMENT_BY_EL
    [⟨"Schuler1", 982, "Barras.VelocidadAcunado.Valor", 69, none, none⟩]
    "Schuler1" 69
    ⟨"Schuler1", 982, "Barras.VelocidadAcunado.Valor", 69, none, none⟩
    (by decide)

/-- C8: the renderer interpolates the stored value into the `<td>`
verbatim — for a value holding HTML-significant characters the emitted
row contains it unescaped. -/
theorem html_value_not_escaped :
    trFor DPELEMENT_BY_EL
      (buildRowsWith SCHULERS EL_IDS DPELEMENT_BY_EL
        [⟨982, 69, "<script>alert(1)</script>", "2024-01-01 10:00:00"⟩])
      "Schuler1" 69 =
    "<tr><td>Barras.VelocidadAcunado.Valor</td><td><script>alert(1)</script></td><td>2024-01-01 10:00:00</td></tr>" := by
  rfl
